import Mathlib

/-!
Verification development for the Expense-Management repository.

The definitions below are a shallow embedding of the server-side code:
the Mongoose data model (`server/models/Approval`, `Expense`, `User`,
`Company`), the approval-workflow route handlers
(`POST /api/approvals/:id/{approve,reject,escalate}` and
`POST /api/expenses/:id/submit`), and the OCR receipt parser
(`parseReceiptText` in the OCR route file).  Document collections are
lists, ObjectIds are naturals, JS numbers are rationals, `Date.now` is an
explicit `now : Nat` parameter, and Mongoose `findById` / `find` /
`findOne().sort()` become list lookups.  Each route handler returns the
HTTP outcome paired with the resulting database state.
-/

/-- The role strings used by the User schema (admin/manager/employee/finance)
and the Approval schema enum (manager/finance/director). -/
inductive Role where
  | admin | manager | employee | finance | director
deriving DecidableEq, Repr

/-- `approvalSchema.status` enum. -/
inductive AStatus where
  | pending | approved | rejected | escalated
deriving DecidableEq, Repr

/-- `expenseSchema.status` enum. -/
inductive EStatus where
  | draft | submitted | pending_manager | pending_finance
  | pending_director | approved | rejected | reimbursed
deriving DecidableEq, Repr

/-- An Approval document (the fields touched by the workflow routes).
Schema defaults: `status = pending`, `priority = 1`. -/
structure Approval where
  id : Nat
  expense : Nat
  approver : Nat
  role : Role
  status : AStatus := .pending
  comments : Option String := none
  actionDate : Option Nat := none
  priority : Int := 1
  escalationReason : Option String := none
  escalatedTo : Option Nat := none
  escalationDate : Option Nat := none
  isUrgent : Bool := false
deriving DecidableEq, Repr

/-- An Expense document (the fields touched by the workflow routes). -/
structure Expense where
  id : Nat
  employee : Nat
  company : Nat
  amount : ℚ
  status : EStatus := .draft
  currentApprover : Option Nat := none
  approvedBy : Option Nat := none
  approvedAt : Option Nat := none
  rejectionReason : Option String := none
deriving DecidableEq, Repr

/-- A User document (the fields read by the workflow routes). -/
structure User where
  id : Nat
  role : Role
  company : Nat
  manager : Option Nat := none
  isActive : Bool := true
deriving DecidableEq, Repr

/-- A Company document; `autoApprovalLimit` is
`companySchema.settings.autoApprovalLimit` (schema default 100). -/
structure Company where
  id : Nat
  autoApprovalLimit : ℚ := 100
deriving DecidableEq, Repr

/-- The document store: one list per collection, in insertion order. -/
structure Db where
  approvals : List Approval := []
  expenses : List Expense := []
  users : List User := []
  companies : List Company := []
deriving DecidableEq, Repr

/-- HTTP error outcomes of the embedded routes, by response code string. -/
inductive ApiErr where
  | notFound            -- 404 APPROVAL_NOT_FOUND / EXPENSE_NOT_FOUND
  | accessDenied        -- 403 ACCESS_DENIED
  | notPending          -- 400 APPROVAL_NOT_PENDING
  | invalidEscalationUser -- 400 INVALID_ESCALATION_USER
  | invalidStatus       -- 400 INVALID_STATUS
  | serverError         -- 500 (thrown exception caught by the handler)
deriving DecidableEq, Repr

/-- Outcome of a route handler. -/
inductive ApiResult where
  | ok
  | err (e : ApiErr)
deriving DecidableEq, Repr

/-- `Approval.findById`. -/
def findApproval (db : Db) (i : Nat) : Option Approval :=
  db.approvals.find? (fun a => a.id == i)

/-- `Expense.findById`. -/
def findExpense (db : Db) (i : Nat) : Option Expense :=
  db.expenses.find? (fun e => e.id == i)

/-- `User.findById`. -/
def findUser (db : Db) (i : Nat) : Option User :=
  db.users.find? (fun u => u.id == i)

/-- `Company.findById`. -/
def findCompany (db : Db) (i : Nat) : Option Company :=
  db.companies.find? (fun c => c.id == i)

/-- `approval.save()` on an existing document: replace by id. -/
def saveApproval (db : Db) (a : Approval) : Db :=
  { db with approvals := db.approvals.map (fun x => if x.id == a.id then a else x) }

/-- `expense.save()` on an existing document: replace by id. -/
def saveExpense (db : Db) (e : Expense) : Db :=
  { db with expenses := db.expenses.map (fun x => if x.id == e.id then e else x) }

/-- `new Approval(...).save()`: insert at the end of the collection. -/
def insertApproval (db : Db) (a : Approval) : Db :=
  { db with approvals := db.approvals ++ [a] }

/-- `Approval.find({ expense, status: 'pending' })`. -/
def pendingFor (db : Db) (eid : Nat) : List Approval :=
  db.approvals.filter (fun a => a.expense == eid && a.status == AStatus.pending)

/-- Leftmost document with minimal `priority` (Mongo `findOne().sort({priority: 1})`
over the already-filtered list). -/
def minByPriority : List Approval → Option Approval
  | [] => none
  | a :: rest =>
    match minByPriority rest with
    | none => some a
    | some b => if a.priority ≤ b.priority then some a else some b

/-- `Approval.findOne({ expense, status: 'pending', priority: { $gt: p } }).sort({ priority: 1 })`. -/
def nextPendingAbove (db : Db) (eid : Nat) (p : Int) : Option Approval :=
  minByPriority (db.approvals.filter
    (fun a => a.expense == eid && a.status == AStatus.pending && decide (p < a.priority)))

/-- The record update performed on the acted approval in the approve route. -/
def approveUpd (a : Approval) (cm : Option String) (u : Bool) (now : Nat) : Approval :=
  { a with status := .approved, comments := cm, actionDate := some now, isUrgent := u }

/-- The expense update in the approve route's move-to-next-approver branch. -/
def promoteUpd (e : Expense) (next : Approval) : Expense :=
  let e1 := { e with currentApprover := some next.approver }
  if next.role = .finance then { e1 with status := .pending_finance }
  else if next.role = .director then { e1 with status := .pending_director }
  else e1

/-- `POST /api/approvals/:id/approve` (route file, approvals router). -/
def approve (db : Db) (callerId approvalId : Nat) (cm : Option String)
    (isUrgent : Bool) (now : Nat) : ApiResult × Db :=
  match findApproval db approvalId with
  | none => (.err .notFound, db)
  | some approval =>
    if approval.approver ≠ callerId then (.err .accessDenied, db)
    else if approval.status ≠ .pending then (.err .notPending, db)
    else
      let db1 := saveApproval db (approveUpd approval cm isUrgent now)
      match findExpense db1 approval.expense with
      | none => (.ok, db1)
      | some expense =>
        let remaining := pendingFor db1 expense.id
        if remaining.length ≤ 1 then
          (.ok, saveExpense db1 { expense with
              status := .approved
              approvedBy := some callerId
              approvedAt := some now })
        else
          match nextPendingAbove db1 expense.id approval.priority with
          | some next => (.ok, saveExpense db1 (promoteUpd expense next))
          | none => (.ok, saveExpense db1 expense)

/-- `expense.rejectionReason = rejectionReason || comments` (JS `||`:
an empty string is falsy and falls through). -/
def jsOrStr (a b : Option String) : Option String :=
  match a with
  | some s => if s = "" then b else some s
  | none => b

/-- The record update performed on the acted approval in the reject route. -/
def rejectUpd (a : Approval) (cm : Option String) (now : Nat) : Approval :=
  { a with status := .rejected, comments := cm, actionDate := some now }

/-- `POST /api/approvals/:id/reject`. -/
def reject (db : Db) (callerId approvalId : Nat) (cm rr : Option String)
    (now : Nat) : ApiResult × Db :=
  match findApproval db approvalId with
  | none => (.err .notFound, db)
  | some approval =>
    if approval.approver ≠ callerId then (.err .accessDenied, db)
    else if approval.status ≠ .pending then (.err .notPending, db)
    else
      let db1 := saveApproval db (rejectUpd approval cm now)
      match findExpense db1 approval.expense with
      | none => (.ok, db1)
      | some expense =>
        (.ok, saveExpense db1 { expense with
            status := .rejected
            rejectionReason := jsOrStr rr cm })

/-- The record update performed on the acted approval in the escalate route. -/
def escalateUpd (a : Approval) (cm er : Option String) (tid now : Nat) : Approval :=
  { a with
    status := .escalated
    comments := cm
    escalationReason := er
    escalatedTo := some tid
    escalationDate := some now }

/-- The Approval schema's `role` enum: `['manager', 'finance', 'director']`.
Mongoose validates it on `save()`. -/
def approvalRoleOk (r : Role) : Bool :=
  r == Role.manager || r == Role.finance || r == Role.director

/-- The expense update at the end of the escalate route. -/
def escExpUpd (e : Expense) (targetRole : Role) (tid : Nat) : Expense :=
  let e1 := { e with currentApprover := some tid }
  if targetRole = .finance then { e1 with status := .pending_finance }
  else if targetRole = .manager then { e1 with status := .pending_manager }
  else e1

/-- `POST /api/approvals/:id/escalate`.  The route checks the target's role
against `['manager', 'finance', 'admin']`, saves the acted approval as
`escalated`, then creates the new Approval; if the target's role is outside
the Approval schema enum the second save throws (500) after the first write. -/
def escalate (db : Db) (callerId approvalId : Nat) (cm er : Option String)
    (escalatedTo now newId : Nat) : ApiResult × Db :=
  match findApproval db approvalId with
  | none => (.err .notFound, db)
  | some approval =>
    if approval.approver ≠ callerId then (.err .accessDenied, db)
    else if approval.status ≠ .pending then (.err .notPending, db)
    else
      match findUser db escalatedTo with
      | none => (.err .invalidEscalationUser, db)
      | some target =>
        if ¬ (target.role = .manager ∨ target.role = .finance ∨ target.role = .admin) then
          (.err .invalidEscalationUser, db)
        else
          let db1 := saveApproval db (escalateUpd approval cm er escalatedTo now)
          if ¬ approvalRoleOk target.role then (.err .serverError, db1)
          else
            let db2 := insertApproval db1
              { id := newId
                expense := approval.expense
                approver := escalatedTo
                role := target.role
                status := .pending
                priority := approval.priority + 1 }
            match findExpense db2 approval.expense with
            | none => (.ok, db2)
            | some expense => (.ok, saveExpense db2 (escExpUpd expense target.role escalatedTo))

/-- `company.settings.autoApprovalLimit || 100` — JS `||` replaces the falsy
value `0` by the fallback `100`. -/
def effectiveLimit (l : ℚ) : ℚ := if l = 0 then 100 else l

/-- `POST /api/expenses/:id/submit` (expenses router). -/
def submit (db : Db) (caller : User) (expenseId now newId : Nat) : ApiResult × Db :=
  match findExpense db expenseId with
  | none => (.err .notFound, db)
  | some expense =>
    if caller.role ≠ .admin ∧ caller.id ≠ expense.employee then (.err .accessDenied, db)
    else if expense.status ≠ .draft then (.err .invalidStatus, db)
    else
      match findCompany db expense.company with
      | none => (.err .serverError, db)   -- `company.settings` on null throws
      | some company =>
        if expense.amount ≤ effectiveLimit company.autoApprovalLimit then
          (.ok, saveExpense db { expense with
              status := .approved
              approvedBy := some caller.id
              approvedAt := some now })
        else
          match findUser db expense.employee with
          | none => (.err .serverError, db)   -- `employee.manager` on null throws
          | some employee =>
            match employee.manager with
            | some m =>
              let db1 := insertApproval db
                { id := newId
                  expense := expense.id
                  approver := m
                  role := .manager
                  status := .pending }
              (.ok, saveExpense db1 { expense with
                  status := .pending_manager
                  currentApprover := some m })
            | none =>
              let financeUsers := db.users.filter
                (fun u => u.company == expense.company && u.role == Role.finance && u.isActive)
              match financeUsers with
              | [] => (.ok, saveExpense db { expense with status := .pending_finance })
              | f :: _ =>
                let db1 := insertApproval db
                  { id := newId
                    expense := expense.id
                    approver := f.id
                    role := .finance
                    status := .pending }
                (.ok, saveExpense db1 { expense with
                    status := .pending_finance
                    currentApprover := some f.id })

/-!
OCR receipt parsing (`parseReceiptText` in the OCR route file).  The
JavaScript works on a string split into trimmed non-empty lines; we work on
`List Char`.  Each regex of the source is embedded as a matcher that scans
start positions left to right, exactly as the regex engine finds the
leftmost match (for these patterns greedy matching never needs to
backtrack across character classes, except the `\d{1,2}` quantifiers of
the date patterns, which are handled explicitly).
-/

/-- Case-sensitive list prefix test. -/
def startsWithCh : List Char → List Char → Bool
  | _, [] => true
  | [], _ :: _ => false
  | c :: cs, k :: ks => c == k && startsWithCh cs ks

/-- Substring containment (`String.prototype.includes`). -/
def containsKw : List Char → List Char → Bool
  | s, kw => startsWithCh s kw ||
      match s with
      | [] => false
      | _ :: rest => containsKw rest kw

/-- Case-insensitive prefix test (for `/.../i` regexes). -/
def startsWithCI : List Char → List Char → Bool
  | _, [] => true
  | [], _ :: _ => false
  | c :: cs, k :: ks => c.toUpper == k.toUpper && startsWithCI cs ks

/-- Numeric value of a digit run. -/
def digitsVal (ds : List Char) : Nat :=
  ds.foldl (fun acc c => acc * 10 + (c.toNat - '0'.toNat)) 0

/-- `parseFloat` of a capture of shape `\d+\.?\d*`, returning the value and
the rest of the input; `none` when no digit is present. -/
def parseNumRest (cs : List Char) : Option (ℚ × List Char) :=
  let ds := cs.takeWhile Char.isDigit
  let rest := cs.dropWhile Char.isDigit
  if ds.isEmpty then none
  else
    match rest with
    | '.' :: rest2 =>
      let fs := rest2.takeWhile Char.isDigit
      some ((digitsVal ds : ℚ) + (digitsVal fs : ℚ) / (10 : ℚ) ^ fs.length,
            rest2.dropWhile Char.isDigit)
    | _ => some ((digitsVal ds : ℚ), rest)

/-- `parseFloat` of the numeric capture alone. -/
def parseNum (cs : List Char) : Option ℚ :=
  (parseNumRest cs).map (fun p => p.1)

/-- Leftmost-match scan: try the matcher at every start position, in order. -/
def scanPos {α : Type} (f : List Char → Option α) : List Char → Option α
  | [] => f []
  | c :: rest =>
    match f (c :: rest) with
    | some v => some v
    | none => scanPos f rest

/-- `KEYWORD[:\s]*\$?(\d+\.?\d*)` (case-insensitive) anchored at a position. -/
def matchKwNumAt (kw : List Char) (cs : List Char) : Option ℚ :=
  if startsWithCI cs kw then
    let r1 := (cs.drop kw.length).dropWhile (fun c => c == ':' || c.isWhitespace)
    let r2 := match r1 with
      | '$' :: r => r
      | _ => r1
    parseNum r2
  else none

/-- `\$(\d+\.?\d*)` anchored at a position. -/
def matchDollarAt : List Char → Option ℚ
  | '$' :: r => parseNum r
  | _ => none

/-- `(\d+\.?\d*)\s*CUR` (case-insensitive) anchored at a position. -/
def matchNumCurAt (cur : List Char) (cs : List Char) : Option ℚ :=
  match parseNumRest cs with
  | none => none
  | some (v, rest) =>
    if startsWithCI (rest.dropWhile Char.isWhitespace) cur then some v else none

/-- The six amount regexes of the source, in source order:
`TOTAL:`, `AMOUNT:`, `$`, `USD`, `EUR`, `GBP`. -/
def amountPatterns : List (List Char → Option ℚ) :=
  [ scanPos (matchKwNumAt ['T', 'O', 'T', 'A', 'L'])
  , scanPos (matchKwNumAt ['A', 'M', 'O', 'U', 'N', 'T'])
  , scanPos matchDollarAt
  , scanPos (matchNumCurAt ['U', 'S', 'D'])
  , scanPos (matchNumCurAt ['E', 'U', 'R'])
  , scanPos (matchNumCurAt ['G', 'B', 'P']) ]

/-- The amount-extraction loop: for each pattern, find the first matching
line; a hit overwrites `amount` and adds 0.3 to `confidence`; the pattern
loop stops as soon as `amount > 0`. -/
def amountGo (pats : List (List Char → Option ℚ)) (lines : List (List Char))
    (amount conf : ℚ) : ℚ × ℚ :=
  match pats with
  | [] => (amount, conf)
  | p :: ps =>
    match lines.findSome? p with
    | none => amountGo ps lines amount conf
    | some v =>
      if v > 0 then (v, conf + 3/10) else amountGo ps lines v (conf + 3/10)

/-- A calendar date as produced by a successful `new Date(...)`. -/
structure CalDate where
  year : Nat
  month : Nat
  day : Nat
deriving DecidableEq, Repr

/-- Leap-year rule of the Gregorian calendar. -/
def isLeap (y : Nat) : Bool :=
  (y % 4 == 0 && y % 100 != 0) || y % 400 == 0

/-- Days in a month. -/
def daysInMonth (y m : Nat) : Nat :=
  if m == 2 then (if isLeap y then 29 else 28)
  else if m == 4 || m == 6 || m == 9 || m == 11 then 30
  else 31

/-- Two-digit years are expanded the way the JS date parser does. -/
def fixYear (y : Nat) : Nat :=
  if y < 50 then y + 2000 else if y < 100 then y + 1900 else y

/-- Build a date from US-style month/day/year components, validating ranges. -/
def mkMdy (m d y : Nat) : Option CalDate :=
  let y1 := fixYear y
  if 1 ≤ m && m ≤ 12 && 1 ≤ d && d ≤ daysInMonth y1 m then
    some { year := y1, month := m, day := d }
  else none

/-- Build a date from year/month/day components, validating ranges. -/
def mkYmd (y m d : Nat) : Option CalDate :=
  if 1 ≤ m && m ≤ 12 && 1 ≤ d && d ≤ daysInMonth y m then
    some { year := y, month := m, day := d }
  else none

/-- Model of the JS `new Date(string)` applied to the capture strings these
patterns can produce: a numeric `a/b/c` (or with `-`) is read US-style as
month/day/year when `a` has one or two digits and as year/month/day when it
has more; anything else — in particular a bare month name such as `"Jan"`,
the only capture the third date pattern yields — is an Invalid Date
(`none`). -/
def jsNewDate (cs : List Char) : Option CalDate :=
  let a := cs.takeWhile Char.isDigit
  match cs.dropWhile Char.isDigit with
  | s1 :: r2 =>
    if s1 == '/' || s1 == '-' then
      let b := r2.takeWhile Char.isDigit
      match r2.dropWhile Char.isDigit with
      | s2 :: r4 =>
        if s2 == '/' || s2 == '-' then
          let c := r4.takeWhile Char.isDigit
          if a.isEmpty || b.isEmpty || c.isEmpty || !(r4.dropWhile Char.isDigit).isEmpty then
            none
          else if a.length ≥ 3 then mkYmd (digitsVal a) (digitsVal b) (digitsVal c)
          else mkMdy (digitsVal a) (digitsVal b) (digitsVal c)
        else none
      | [] => none
    else none
  | _ => none

/-- `(\d{1,2}[\/\-]\d{1,2}[\/\-]\d{2,4})` anchored at a position; the capture
(group 1) is the whole match.  `\d{1,2}` succeeds only when the digit run is
of length 1 or 2 and is followed by a separator; `\d{2,4}` takes up to four
digits of the final run. -/
def matchD1At (cs : List Char) : Option (List Char) :=
  let a := cs.takeWhile Char.isDigit
  if a.length == 0 || a.length > 2 then none
  else
    match cs.dropWhile Char.isDigit with
    | s1 :: r2 =>
      if s1 == '/' || s1 == '-' then
        let b := r2.takeWhile Char.isDigit
        if b.length == 0 || b.length > 2 then none
        else
          match r2.dropWhile Char.isDigit with
          | s2 :: r4 =>
            if s2 == '/' || s2 == '-' then
              let c := r4.takeWhile Char.isDigit
              if c.length < 2 then none
              else some (a ++ s1 :: b ++ s2 :: c.take 4)
            else none
          | [] => none
      else none
    | [] => none

/-- `(\d{4}[\/\-]\d{1,2}[\/\-]\d{1,2})` anchored at a position. -/
def matchD2At (cs : List Char) : Option (List Char) :=
  let a := cs.takeWhile Char.isDigit
  if a.length != 4 then none
  else
    match cs.dropWhile Char.isDigit with
    | s1 :: r2 =>
      if s1 == '/' || s1 == '-' then
        let b := r2.takeWhile Char.isDigit
        if b.length == 0 || b.length > 2 then none
        else
          match r2.dropWhile Char.isDigit with
          | s2 :: r4 =>
            if s2 == '/' || s2 == '-' then
              let c := r4.takeWhile Char.isDigit
              if c.length == 0 then none
              else some (a ++ s1 :: b ++ s2 :: c.take 2)
            else none
          | [] => none
      else none
    | [] => none

/-- The month-name alternation of the third date pattern. -/
def monthNames : List (List Char) :=
  [ ['J','a','n'], ['F','e','b'], ['M','a','r'], ['A','p','r']
  , ['M','a','y'], ['J','u','n'], ['J','u','l'], ['A','u','g']
  , ['S','e','p'], ['O','c','t'], ['N','o','v'], ['D','e','c'] ]

/-- Whether `[\s,]*\d{1,2}[\s,]*\d{2,4}` matches a suffix, accounting for the
backtracking of `\d{1,2}` when the first digit run is longer than what it
consumed (a run of three or more digits always completes the pattern). -/
def matchD3Tail (r3 : List Char) : Bool :=
  let d1 := r3.takeWhile Char.isDigit
  if d1.length ≥ 3 then true
  else if d1.length == 0 then false
  else
    let r5 := (r3.dropWhile Char.isDigit).dropWhile (fun c => c.isWhitespace || c == ',')
    (r5.takeWhile Char.isDigit).length ≥ 2

/-- `(Jan|Feb|...|Dec)[\s,]*\d{1,2}[\s,]*\d{2,4}` (case-insensitive) anchored
at a position; the capture (group 1) is only the month name as it appears in
the input. -/
def matchD3At (cs : List Char) : Option (List Char) :=
  monthNames.findSome? (fun m =>
    if startsWithCI cs m then
      let r3 := (cs.drop 3).dropWhile (fun c => c.isWhitespace || c == ',')
      if matchD3Tail r3 then some (cs.take 3) else none
    else none)

/-- The three date regexes of the source, in source order. -/
def datePatterns : List (List Char → Option (List Char)) :=
  [scanPos matchD1At, scanPos matchD2At, scanPos matchD3At]

/-- One pattern's line loop of the date extraction.  The state mirrors the JS
`date` variable: `none` is `null`, `some none` an Invalid Date object,
`some (some d)` a valid date.  A valid parse stops the loop (returning
`true`, the 0.2 confidence bump); an invalid parse overwrites `date` with
the Invalid Date and keeps scanning lines. -/
def dateLineGo (p : List Char → Option (List Char)) :
    List (List Char) → Option (Option CalDate) → Option (Option CalDate) × Bool
  | [], d => (d, false)
  | l :: ls, d =>
    match p l with
    | none => dateLineGo p ls d
    | some cap =>
      match jsNewDate cap with
      | some cd => (some (some cd), true)
      | none => dateLineGo p ls (some none)

/-- The date-extraction pattern loop.  After a pattern's line loop the JS
checks `if (date) break` — an Invalid Date object is truthy, so any match,
valid or not, ends the pattern loop. -/
def dateGo (pats : List (List Char → Option (List Char))) (lines : List (List Char))
    (d : Option (Option CalDate)) (conf : ℚ) : Option (Option CalDate) × ℚ :=
  match pats with
  | [] => (d, conf)
  | p :: ps =>
    let r := dateLineGo p lines d
    let conf1 := if r.2 then conf + 2/10 else conf
    match r.1 with
    | some x => (some x, conf1)
    | none => dateGo ps lines none conf1

/-- `text.split('\n')`. -/
def splitNl : List Char → List (List Char)
  | [] => [[]]
  | '\n' :: rest => [] :: splitNl rest
  | c :: rest =>
    match splitNl rest with
    | [] => [[c]]
    | l :: ls => (c :: l) :: ls

/-- `line.trim()`. -/
def trimCh (cs : List Char) : List Char :=
  ((cs.dropWhile Char.isWhitespace).reverse.dropWhile Char.isWhitespace).reverse

/-- `text.split('\n').map(trim).filter(length > 0)`. -/
def linesOf (cs : List Char) : List (List Char) :=
  ((splitNl cs).map trimCh).filter (fun l => l.length > 0)

/-- The business-suffix keywords used for the merchant heuristic. -/
def businessKeywords : List (List Char) :=
  [ ['L','T','D'], ['I','N','C'], ['C','O','R','P'], ['L','L','C']
  , ['S','T','O','R','E'], ['S','H','O','P']
  , ['R','E','S','T','A','U','R','A','N','T'], ['H','O','T','E','L'] ]

/-- Merchant extraction: first line containing a business keyword
(uppercased comparison), else the first line, else the empty string. -/
def merchantOf (lines : List (List Char)) : List Char :=
  match lines.find? (fun l =>
      businessKeywords.any (fun k => containsKw (l.map Char.toUpper) k)) with
  | some l => l
  | none => lines.headD []

/-- The keyword-to-category table, in source order. -/
def categoryKeywords : List (String × List (List Char)) :=
  [ ("Travel", [ ['a','i','r','l','i','n','e'], ['f','l','i','g','h','t'], ['t','a','x','i']
               , ['u','b','e','r'], ['l','y','f','t'], ['t','r','a','i','n']
               , ['b','u','s'], ['m','e','t','r','o'] ])
  , ("Food", [ ['r','e','s','t','a','u','r','a','n','t'], ['c','a','f','e']
             , ['c','o','f','f','e','e'], ['f','o','o','d'], ['d','i','n','i','n','g']
             , ['p','i','z','z','a'], ['b','u','r','g','e','r'] ])
  , ("Stay", [ ['h','o','t','e','l'], ['m','o','t','e','l']
             , ['a','c','c','o','m','m','o','d','a','t','i','o','n']
             , ['l','o','d','g','i','n','g'], ['a','i','r','b','n','b'] ])
  , ("Transportation", [ ['g','a','s'], ['f','u','e','l'], ['p','a','r','k','i','n','g']
                       , ['t','o','l','l'], ['h','i','g','h','w','a','y'] ])
  , ("Office Supplies", [ ['o','f','f','i','c','e'], ['s','t','a','t','i','o','n','e','r','y']
                        , ['s','u','p','p','l','i','e','s'], ['s','t','a','p','l','e','s'] ])
  , ("Entertainment", [ ['m','o','v','i','e'], ['c','i','n','e','m','a']
                      , ['t','h','e','a','t','e','r'], ['c','o','n','c','e','r','t']
                      , ['s','p','o','r','t','s'] ]) ]

/-- Category lookup over the lowercased merchant name; a hit adds 0.1. -/
def categoryScan (ml : List Char) : String × ℚ :=
  match categoryKeywords.find? (fun kc => kc.2.any (fun k => containsKw ml k)) with
  | some kc => (kc.1, 1/10)
  | none => ("Other", 0)

/-- The parse result returned by `parseReceiptText`; `date` is as in
`dateGo` (`none` = null, `some none` = Invalid Date). -/
structure ReceiptParse where
  merchantName : String
  amount : ℚ
  date : Option (Option CalDate)
  category : String
  confidence : ℚ
deriving DecidableEq, Repr

/-- `parseReceiptText(text)` of the OCR route file. -/
def parseReceiptText (text : String) : ReceiptParse :=
  let lines := linesOf text.toList
  let merchant := merchantOf lines
  let ac := amountGo amountPatterns lines 0 0
  let dc := dateGo datePatterns lines none ac.2
  let cc := categoryScan (merchant.map Char.toLower)
  { merchantName := String.mk merchant
    amount := ac.1
    date := dc.1
    category := cc.1
    confidence := min (dc.2 + cc.2) 1 }

/-!  General lemmas about the embedding, shared by the claim theorems.  -/

/-- Replacing the stored document behind a successful `find?` by an update
with the same key makes `find?` return the update. -/
theorem find_replace_eq {α : Type} (key : α → Nat) (l : List α) (e e1 : α) (i : Nat)
    (h : l.find? (fun x => key x == i) = some e) (hid : key e1 = key e) :
    (l.map (fun x => if key x == key e1 then e1 else x)).find? (fun x => key x == i)
      = some e1 := by
  induction l with
  | nil => simp at h
  | cons x xs ih =>
    by_cases hxi : key x = i
    · rw [List.find?_cons_of_pos _ (by simp [hxi])] at h
      have hex : e = x := by simpa using h.symm
      have hkey : key e1 = i := by rw [hid, hex, hxi]
      simp only [List.map_cons]
      rw [if_pos (by simp [hid, hex])]
      exact List.find?_cons_of_pos _ (by simp [hkey])
    · rw [List.find?_cons_of_neg _ (by simp [hxi])] at h
      simp only [List.map_cons]
      have hkey : key e = i := by simpa using List.find?_some h
      have hkx : key e1 ≠ key x := by
        intro hcon
        rw [hid, hkey] at hcon
        exact hxi hcon.symm
      rw [if_neg (by simpa using fun hcon => hkx hcon.symm)]
      rw [List.find?_cons_of_neg _ (by simp [hxi])]
      exact ih h

/-- A successful `find?` key lookup returns a document with that key. -/
theorem find_key_eq {α : Type} (key : α → Nat) (l : List α) (e : α) (i : Nat)
    (h : l.find? (fun x => key x == i) = some e) : key e = i := by
  simpa using List.find?_some h

/-- `minByPriority` of a nonempty list is never `none`. -/
theorem minByPriority_cons_ne (x : Approval) (xs : List Approval) :
    minByPriority (x :: xs) ≠ none := by
  unfold minByPriority
  split
  · simp
  · split <;> simp

/-- `minByPriority` returns an element of the list. -/
theorem minByPriority_mem (l : List Approval) (a : Approval)
    (h : minByPriority l = some a) : a ∈ l := by
  induction l with
  | nil => simp [minByPriority] at h
  | cons x xs ih =>
    unfold minByPriority at h
    split at h
    · simp at h
      simp [h]
    · rename_i b hb
      split at h
      · simp at h
        simp [h]
      · simp at h
        exact List.mem_cons_of_mem x (ih (h ▸ hb))

/-- `minByPriority` returns a priority-minimal element. -/
theorem minByPriority_min :
    ∀ (l : List Approval) (a : Approval), minByPriority l = some a →
      ∀ b ∈ l, a.priority ≤ b.priority := by
  intro l
  induction l with
  | nil => intro a h; simp [minByPriority] at h
  | cons x xs ih =>
    intro a h b hb
    unfold minByPriority at h
    split at h
    · rename_i hnone
      simp at h
      subst h
      rcases List.mem_cons.mp hb with rfl | hbxs
      · exact le_refl _
      · exfalso
        cases xs with
        | nil => simp at hbxs
        | cons y ys => exact minByPriority_cons_ne y ys hnone
    · rename_i c hc
      split at h
      · rename_i hle
        simp at h
        subst h
        rcases List.mem_cons.mp hb with rfl | hbxs
        · exact le_refl _
        · exact le_trans hle (ih c hc b hbxs)
      · rename_i hnle
        simp at h
        subst h
        rcases List.mem_cons.mp hb with rfl | hbxs
        · exact le_of_not_le hnle
        · exact ih c hc b hbxs

/-- Saving an approval does not change the expense collection. -/
theorem findExpense_saveApproval (db : Db) (a : Approval) (i : Nat) :
    findExpense (saveApproval db a) i = findExpense db i := rfl

/-- `findExpense` after `saveExpense` of an update with the same id. -/
theorem findExpense_save (db : Db) (e e1 : Expense) (i : Nat)
    (h : findExpense db i = some e) (hid : e1.id = e.id) :
    findExpense (saveExpense db e1) i = some e1 :=
  find_replace_eq Expense.id db.expenses e e1 i h hid

/-- `findApproval` after `saveApproval` of an update with the same id. -/
theorem findApproval_save (db : Db) (a a1 : Approval) (i : Nat)
    (h : findApproval db i = some a) (hid : a1.id = a.id) :
    findApproval (saveApproval db a1) i = some a1 :=
  find_replace_eq Approval.id db.approvals a a1 i h hid

/-- The date loop never decreases the confidence accumulator. -/
theorem dateGo_conf_le (ps : List (List Char → Option (List Char)))
    (lines : List (List Char)) (d : Option (Option CalDate)) (conf : ℚ) :
    conf ≤ (dateGo ps lines d conf).2 := by
  induction ps generalizing d conf with
  | nil => simp [dateGo]
  | cons p ps ih =>
    unfold dateGo
    have h1 : conf ≤ (if (dateLineGo p lines d).2 then conf + 2/10 else conf) := by
      split
      · linarith
      · exact le_refl conf
    dsimp only
    split
    · exact h1
    · exact le_trans h1 (ih none _)

/-- The category bump is nonnegative. -/
theorem categoryScan_nonneg (ml : List Char) : 0 ≤ (categoryScan ml).2 := by
  unfold categoryScan
  split <;> norm_num

/-- The final confidence is capped at 1. -/
theorem parse_conf_le_one (t : String) : (parseReceiptText t).confidence ≤ 1 := by
  unfold parseReceiptText
  exact min_le_right _ _

/-- `findSome?` over a list whose prefix yields nothing finds the marked element. -/
theorem findSome_append_first {α β : Type} (f : α → Option β) (pre post : List α) (l : α)
    (hpre : ∀ x ∈ pre, f x = none) (v : β) (hl : f l = some v) :
    (pre ++ l :: post).findSome? f = some v := by
  induction pre with
  | nil => simp [List.findSome?_cons, hl]
  | cons x xs ih =>
    simp only [List.cons_append, List.findSome?_cons]
    rw [hpre x (List.mem_cons_self x xs)]
    exact ih (fun y hy => hpre y (List.mem_cons_of_mem x hy))

/-- If the first pattern hits with a positive value, the amount loop stops
there with a single 0.3 contribution. -/
theorem amountGo_first_pos (p : List Char → Option ℚ) (ps : List (List Char → Option ℚ))
    (lines : List (List Char)) (v : ℚ) (hv : lines.findSome? p = some v) (hpos : 0 < v) :
    amountGo (p :: ps) lines 0 0 = (v, 3/10) := by
  unfold amountGo
  rw [hv]
  dsimp only
  rw [if_pos hpos]
  norm_num

/-- Claim C2: a draft expense submitted by its owner (or an admin) whose
amount is at most the company's `settings.autoApprovalLimit` is immediately
approved — status `approved`, `approvedBy` the submitter, `approvedAt`
stamped — and no Approval record is created. -/
theorem c2_submit_within_limit_auto_approves
    (db : Db) (caller : User) (eid now newId : Nat)
    (e : Expense) (he : findExpense db eid = some e)
    (hauth : caller.role = .admin ∨ caller.id = e.employee)
    (hdraft : e.status = .draft)
    (c : Company) (hc : findCompany db e.company = some c)
    (hamt : e.amount ≤ c.autoApprovalLimit) :
    submit db caller eid now newId =
      (.ok, saveExpense db { e with
          status := .approved
          approvedBy := some caller.id
          approvedAt := some now }) ∧
    (submit db caller eid now newId).2.approvals = db.approvals := by
  have hle : e.amount ≤ effectiveLimit c.autoApprovalLimit := by
    unfold effectiveLimit
    split
    · rename_i h0
      rw [h0] at hamt
      linarith
    · exact hamt
  have hA : ¬ (caller.role ≠ Role.admin ∧ caller.id ≠ e.employee) := by
    rcases hauth with h | h
    · intro hcon; exact hcon.1 h
    · intro hcon; exact hcon.2 h
  have hmain : submit db caller eid now newId =
      (.ok, saveExpense db { e with
          status := .approved
          approvedBy := some caller.id
          approvedAt := some now }) := by
    unfold submit
    rw [he]
    dsimp only
    rw [if_neg hA]
    rw [if_neg (by simp [hdraft])]
    rw [hc]
    dsimp only
    rw [if_pos hle]
  refine ⟨hmain, ?_⟩
  rw [hmain]
  rfl

/-- Concrete store for the C2 witness: one draft expense of amount 50,
company limit 100 (default). -/
def c2db : Db :=
  { expenses := [{ id := 10, employee := 2, company := 1, amount := 50 }]
    companies := [{ id := 1 }] }

/-- The submitting employee of the C2 witness. -/
def c2caller : User := { id := 2, role := .employee, company := 1 }

/-- Witness for C2: the spec scenario `autoApprovalLimit=100`, `amount=50`. -/
theorem c2_witness :
    submit c2db c2caller 10 5 7 =
      (.ok, saveExpense c2db { id := 10
                               employee := 2
                               company := 1
                               amount := 50
                               status := .approved
                               approvedBy := some 2
                               approvedAt := some 5 }) ∧
    (submit c2db c2caller 10 5 7).2.approvals = c2db.approvals :=
  c2_submit_within_limit_auto_approves c2db c2caller 10 5 7
    { id := 10, employee := 2, company := 1, amount := 50 } rfl
    (Or.inr rfl) rfl { id := 1 } rfl (by norm_num)

/-- Concrete store for C3's counterexample: the company's configured
`autoApprovalLimit` is 0, the draft expense's amount 50 is above it, and the
employee has an assigned manager. -/
def c3db : Db :=
  { expenses := [{ id := 10, employee := 2, company := 1, amount := 50 }]
    users := [{ id := 2, role := .employee, company := 1, manager := some 3 }
              , { id := 3, role := .manager, company := 1 }]
    companies := [{ id := 1, autoApprovalLimit := 0 }] }

/-- The submitting employee of the C3 counterexample. -/
def c3caller : User := { id := 2, role := .employee, company := 1, manager := some 3 }

/-- Counterexample to C3 as stated: the expense's amount 50 is above the
company's configured auto-approval limit 0 and the employee has a manager,
yet submit auto-approves the expense and creates no Approval — because the
route computes `settings.autoApprovalLimit || 100`, turning a configured 0
into 100. -/
theorem c3_counterexample_limit_zero_auto_approves :
    (findCompany c3db 1).map Company.autoApprovalLimit = some 0 ∧
    (50 : ℚ) > 0 ∧
    (submit c3db c3caller 10 5 7).1 = .ok ∧
    (findExpense (submit c3db c3caller 10 5 7).2 10).map Expense.status
      = some EStatus.approved ∧
    (submit c3db c3caller 10 5 7).2.approvals = [] := by
  refine ⟨rfl, by norm_num, ?_, ?_, ?_⟩ <;> with_unfolding_all decide

/-- Claim C3, amended: for a draft expense whose amount is above the
*effective* auto-approval limit (`settings.autoApprovalLimit || 100` — a
configured 0 is replaced by 100), submitted by its owner or an admin, with
the owning employee having an assigned manager, submit sets the expense to
`pending_manager` with `currentApprover` the manager and creates exactly one
Approval with approver the manager, role `manager`, status `pending`,
priority 1. -/
theorem c3_submit_above_limit_creates_manager_approval
    (db : Db) (caller : User) (eid now newId : Nat)
    (e : Expense) (he : findExpense db eid = some e)
    (hauth : caller.role = .admin ∨ caller.id = e.employee)
    (hdraft : e.status = .draft)
    (c : Company) (hc : findCompany db e.company = some c)
    (hamt : effectiveLimit c.autoApprovalLimit < e.amount)
    (emp : User) (hemp : findUser db e.employee = some emp)
    (m : Nat) (hmgr : emp.manager = some m) :
    submit db caller eid now newId =
      (.ok, saveExpense
        (insertApproval db { id := newId
                             expense := e.id
                             approver := m
                             role := .manager
                             status := .pending })
        { e with status := .pending_manager, currentApprover := some m }) ∧
    (submit db caller eid now newId).2.approvals =
      db.approvals ++ [{ id := newId
                         expense := e.id
                         approver := m
                         role := .manager
                         status := .pending
                         priority := 1 }] ∧
    findExpense (submit db caller eid now newId).2 eid =
      some { e with status := .pending_manager, currentApprover := some m } := by
  have hA : ¬ (caller.role ≠ Role.admin ∧ caller.id ≠ e.employee) := by
    rcases hauth with h | h
    · intro hcon; exact hcon.1 h
    · intro hcon; exact hcon.2 h
  have hmain : submit db caller eid now newId =
      (.ok, saveExpense
        (insertApproval db { id := newId
                             expense := e.id
                             approver := m
                             role := .manager
                             status := .pending })
        { e with status := .pending_manager, currentApprover := some m }) := by
    unfold submit
    rw [he]
    dsimp only
    rw [if_neg hA]
    rw [if_neg (by simp [hdraft])]
    rw [hc]
    dsimp only
    rw [if_neg (not_le.mpr hamt)]
    rw [hemp]
    dsimp only
    rw [hmgr]
  refine ⟨hmain, ?_, ?_⟩
  · rw [hmain]
    rfl
  · rw [hmain]
    exact findExpense_save _ e _ eid he rfl

/-- Concrete store for the C3 witness: limit 100, amount 500, manager 3
(the spec scenario). -/
def c3wdb : Db :=
  { expenses := [{ id := 10, employee := 2, company := 1, amount := 500 }]
    users := [{ id := 2, role := .employee, company := 1, manager := some 3 }
              , { id := 3, role := .manager, company := 1 }]
    companies := [{ id := 1 }] }

/-- Witness for the amended C3: employee with manager 3 submits amount 500
against limit 100. -/
theorem c3_witness :
    submit c3wdb c3caller 10 5 7 =
      (.ok, saveExpense
        (insertApproval c3wdb { id := 7
                                expense := 10
                                approver := 3
                                role := .manager
                                status := .pending })
        { id := 10
          employee := 2
          company := 1
          amount := 500
          status := .pending_manager
          currentApprover := some 3 }) ∧
    (submit c3wdb c3caller 10 5 7).2.approvals =
      c3wdb.approvals ++ [{ id := 7
                            expense := 10
                            approver := 3
                            role := .manager
                            status := .pending
                            priority := 1 }] ∧
    findExpense (submit c3wdb c3caller 10 5 7).2 10 =
      some { id := 10
             employee := 2
             company := 1
             amount := 500
             status := .pending_manager
             currentApprover := some 3 } :=
  c3_submit_above_limit_creates_manager_approval c3wdb c3caller 10 5 7
    { id := 10, employee := 2, company := 1, amount := 500 } rfl
    (Or.inr rfl) rfl { id := 1 } rfl (by unfold effectiveLimit; norm_num)
    { id := 2, role := .employee, company := 1, manager := some 3 } rfl 3 rfl

/-- `promoteUpd` does not change the expense id. -/
theorem promoteUpd_id (e : Expense) (n : Approval) : (promoteUpd e n).id = e.id := by
  unfold promoteUpd
  dsimp only
  split
  · rfl
  · split <;> rfl

/-- `promoteUpd` only ever produces the two pending statuses or leaves the
status unchanged. -/
theorem promoteUpd_status (e : Expense) (n : Approval) :
    (promoteUpd e n).status = .pending_finance ∨
    (promoteUpd e n).status = .pending_director ∨
    (promoteUpd e n).status = e.status := by
  unfold promoteUpd
  dsimp only
  split
  · exact Or.inl rfl
  · split
    · exact Or.inr (Or.inl rfl)
    · exact Or.inr (Or.inr rfl)

/-- Concrete store for C1's counterexample: expense 10 has two pending
approvals, priority 1 for approver 2 and priority 2 for approver 3. -/
def c1db : Db :=
  { approvals := [{ id := 1, expense := 10, approver := 2, role := .manager, priority := 1 }
                  , { id := 2, expense := 10, approver := 3, role := .finance, priority := 2 }]
    expenses := [{ id := 10, employee := 4, company := 1, amount := 500,
                   status := .pending_manager, currentApprover := some 2 }] }

/-- Counterexample to C1 as stated: approver 2 approves approval 1 while
approval 2 is still pending for the same expense — the acted approval was
not the last pending one — yet the route marks the expense `approved`,
because it finalizes whenever at most one pending approval *remains* after
the acted one is marked approved (`remainingApprovals.length <= 1`). -/
theorem c1_counterexample_second_to_last_finalizes :
    (approve c1db 2 1 none false 99).1 = .ok ∧
    (findApproval (approve c1db 2 1 none false 99).2 2).map Approval.status
      = some AStatus.pending ∧
    (findExpense (approve c1db 2 1 none false 99).2 10).map Expense.status
      = some EStatus.approved := by
  refine ⟨?_, ?_, ?_⟩ <;> with_unfolding_all decide

/-- Claim C1, amended: after a successful approve action, the expense is
stamped `approved` (with `approvedBy` the caller and `approvedAt` the action
time) if and only if at most one Approval for the expense is still pending
after the acted approval has been marked approved — i.e. also when exactly
one *other* approver is still pending, not only when the acted approval was
the last pending one. -/
theorem c1_approve_finalizes_iff_at_most_one_pending_left
    (db : Db) (caller aid : Nat) (cm : Option String) (u : Bool) (now : Nat)
    (a : Approval) (ha : findApproval db aid = some a)
    (hap : a.approver = caller) (hst : a.status = .pending)
    (e : Expense) (he : findExpense db a.expense = some e)
    (hnotyet : e.status ≠ .approved) :
    (approve db caller aid cm u now).1 = .ok ∧
    ((findExpense (approve db caller aid cm u now).2 a.expense =
        some { e with
               status := .approved
               approvedBy := some caller
               approvedAt := some now })
      ↔ (pendingFor (saveApproval db (approveUpd a cm u now)) e.id).length ≤ 1) := by
  have hid : e.id = a.expense := find_key_eq Expense.id db.expenses e a.expense he
  have he1 : findExpense (saveApproval db (approveUpd a cm u now)) a.expense = some e := he
  have hred : approve db caller aid cm u now =
      (let db1 := saveApproval db (approveUpd a cm u now)
       if (pendingFor db1 e.id).length ≤ 1 then
         (.ok, saveExpense db1 { e with
                                 status := .approved
                                 approvedBy := some caller
                                 approvedAt := some now })
       else
         match nextPendingAbove db1 e.id a.priority with
         | some next => (.ok, saveExpense db1 (promoteUpd e next))
         | none => (.ok, saveExpense db1 e)) := by
    unfold approve
    rw [ha]
    dsimp only
    rw [if_neg (by simp [hap])]
    rw [if_neg (by simp [hst])]
    rw [he1]
  rw [hred]
  dsimp only
  by_cases hrem : (pendingFor (saveApproval db (approveUpd a cm u now)) e.id).length ≤ 1
  · rw [if_pos hrem]
    refine ⟨rfl, iff_of_true ?_ hrem⟩
    exact findExpense_save _ e _ a.expense he1 rfl
  · rw [if_neg hrem]
    cases hn : nextPendingAbove (saveApproval db (approveUpd a cm u now)) e.id a.priority with
    | some next =>
      refine ⟨rfl, iff_of_false ?_ hrem⟩
      intro hcon
      rw [findExpense_save _ e (promoteUpd e next) a.expense he1 (promoteUpd_id e next)] at hcon
      have hstat := congrArg Expense.status (Option.some.inj hcon)
      rcases promoteUpd_status e next with hx | hx | hx <;>
        rw [hx] at hstat <;>
        first
          | exact EStatus.noConfusion hstat
          | exact hnotyet hstat
    | none =>
      refine ⟨rfl, iff_of_false ?_ hrem⟩
      intro hcon
      rw [findExpense_save _ e e a.expense he1 rfl] at hcon
      exact hnotyet (congrArg Expense.status (Option.some.inj hcon))

/-- Concrete store for the C1 witness: a single pending approval. -/
def c1wdb : Db :=
  { approvals := [{ id := 1, expense := 10, approver := 2, role := .manager }]
    expenses := [{ id := 10, employee := 4, company := 1, amount := 500,
                   status := .pending_manager, currentApprover := some 2 }] }

/-- Witness for the amended C1 at a store with a single pending approval. -/
theorem c1_witness :
    (approve c1wdb 2 1 none false 99).1 = .ok ∧
    ((findExpense (approve c1wdb 2 1 none false 99).2 10 =
        some { id := 10
               employee := 4
               company := 1
               amount := 500
               status := .approved
               currentApprover := some 2
               approvedBy := some 2
               approvedAt := some 99 })
      ↔ (pendingFor (saveApproval c1wdb
            (approveUpd { id := 1, expense := 10, approver := 2, role := .manager }
              none false 99)) 10).length ≤ 1) :=
  c1_approve_finalizes_iff_at_most_one_pending_left c1wdb 2 1 none false 99
    { id := 1, expense := 10, approver := 2, role := .manager } rfl rfl rfl
    { id := 10, employee := 4, company := 1, amount := 500,
      status := .pending_manager, currentApprover := some 2 } rfl (by decide)

/-- Saving an expense does not change the approval collection. -/
theorem findApproval_saveExpense (db : Db) (e : Expense) (i : Nat) :
    findApproval (saveExpense db e) i = findApproval db i := rfl

/-- Claim C4: rejecting a pending approval by its approver marks the
approval `rejected` and the expense `rejected` unconditionally — no
hypothesis about other pending approvals is needed — with
`rejectionReason = rejectionReason || comments`. -/
theorem c4_reject_unconditionally_rejects
    (db : Db) (caller aid : Nat) (cm rr : Option String) (now : Nat)
    (a : Approval) (ha : findApproval db aid = some a)
    (hap : a.approver = caller) (hst : a.status = .pending)
    (e : Expense) (he : findExpense db a.expense = some e) :
    reject db caller aid cm rr now =
      (.ok, saveExpense (saveApproval db (rejectUpd a cm now))
        { e with status := .rejected, rejectionReason := jsOrStr rr cm }) ∧
    (findApproval (reject db caller aid cm rr now).2 aid).map Approval.status
      = some AStatus.rejected ∧
    (findExpense (reject db caller aid cm rr now).2 a.expense).map Expense.status
      = some EStatus.rejected ∧
    (findExpense (reject db caller aid cm rr now).2 a.expense).map Expense.rejectionReason
      = some (jsOrStr rr cm) := by
  have he1 : findExpense (saveApproval db (rejectUpd a cm now)) a.expense = some e := he
  have hmain : reject db caller aid cm rr now =
      (.ok, saveExpense (saveApproval db (rejectUpd a cm now))
        { e with status := .rejected, rejectionReason := jsOrStr rr cm }) := by
    unfold reject
    rw [ha]
    dsimp only
    rw [if_neg (by simp [hap])]
    rw [if_neg (by simp [hst])]
    rw [he1]
  refine ⟨hmain, ?_, ?_, ?_⟩
  · rw [hmain]
    dsimp only
    rw [findApproval_saveExpense]
    rw [findApproval_save db a (rejectUpd a cm now) aid ha rfl]
    rfl
  · rw [hmain]
    dsimp only
    rw [findExpense_save _ e
      { e with status := .rejected, rejectionReason := jsOrStr rr cm } a.expense he1 rfl]
    rfl
  · rw [hmain]
    dsimp only
    rw [findExpense_save _ e
      { e with status := .rejected, rejectionReason := jsOrStr rr cm } a.expense he1 rfl]
    rfl

/-- Concrete store for the C4 witness: approver 5 holds a pending approval
for expense 10, and a second pending approval for approver 6 exists, so the
rejection is visibly independent of other pending approvers. -/
def c4db : Db :=
  { approvals := [{ id := 1, expense := 10, approver := 5, role := .manager, priority := 1 }
                  , { id := 2, expense := 10, approver := 6, role := .finance, priority := 2 }]
    expenses := [{ id := 10, employee := 2, company := 1, amount := 500,
                   status := .pending_manager, currentApprover := some 5 }] }

/-- Witness for C4: the spec scenario — approver rejects with comment
"out of policy" and no explicit rejection reason; the expense ends
`rejected` with `rejectionReason = "out of policy"`. -/
theorem c4_witness :
    reject c4db 5 1 (some "out of policy") none 99 =
      (.ok, saveExpense (saveApproval c4db
          (rejectUpd { id := 1, expense := 10, approver := 5, role := .manager, priority := 1 }
            (some "out of policy") 99))
        { id := 10
          employee := 2
          company := 1
          amount := 500
          status := .rejected
          currentApprover := some 5
          rejectionReason := some "out of policy" }) ∧
    (findApproval (reject c4db 5 1 (some "out of policy") none 99).2 1).map Approval.status
      = some AStatus.rejected ∧
    (findExpense (reject c4db 5 1 (some "out of policy") none 99).2 10).map Expense.status
      = some EStatus.rejected ∧
    (findExpense (reject c4db 5 1 (some "out of policy") none 99).2 10).map Expense.rejectionReason
      = some (some "out of policy") :=
  c4_reject_unconditionally_rejects c4db 5 1 (some "out of policy") none 99
    { id := 1, expense := 10, approver := 5, role := .manager, priority := 1 } rfl rfl rfl
    { id := 10, employee := 2, company := 1, amount := 500,
      status := .pending_manager, currentApprover := some 5 } rfl

/-- `promoteUpd` sets `currentApprover` to the promoted approval's approver. -/
theorem promoteUpd_approver (e : Expense) (n : Approval) :
    (promoteUpd e n).currentApprover = some n.approver := by
  unfold promoteUpd
  dsimp only
  split
  · rfl
  · split <;> rfl

/-- Promoting a finance-role approval yields `pending_finance`. -/
theorem promoteUpd_finance (e : Expense) (n : Approval) (h : n.role = .finance) :
    (promoteUpd e n).status = .pending_finance := by
  unfold promoteUpd
  dsimp only
  rw [if_pos h]

/-- Promoting a director-role approval yields `pending_director`. -/
theorem promoteUpd_director (e : Expense) (n : Approval) (h : n.role = .director) :
    (promoteUpd e n).status = .pending_director := by
  unfold promoteUpd
  dsimp only
  rw [if_neg (by simp [h]), if_pos h]

/-- Claim C5: when an approve action succeeds with more than one approval
still pending afterwards, the route promotes the pending approval with the
smallest priority strictly above the acted approval's priority: the expense's
`currentApprover` becomes that approval's approver and its status becomes
`pending_finance` or `pending_director` exactly according to that approval's
role tag. -/
theorem c5_approve_moves_to_next_priority_approver
    (db : Db) (caller aid : Nat) (cm : Option String) (u : Bool) (now : Nat)
    (a : Approval) (ha : findApproval db aid = some a)
    (hap : a.approver = caller) (hst : a.status = .pending)
    (e : Expense) (he : findExpense db a.expense = some e)
    (hrem : ¬ (pendingFor (saveApproval db (approveUpd a cm u now)) e.id).length ≤ 1)
    (n : Approval)
    (hn : nextPendingAbove (saveApproval db (approveUpd a cm u now)) e.id a.priority
        = some n) :
    (approve db caller aid cm u now).1 = .ok ∧
    n ∈ (saveApproval db (approveUpd a cm u now)).approvals.filter
        (fun b => b.expense == e.id && b.status == AStatus.pending
          && decide (a.priority < b.priority)) ∧
    ((saveApproval db (approveUpd a cm u now)).approvals.filter
        (fun b => b.expense == e.id && b.status == AStatus.pending
          && decide (a.priority < b.priority))).all
        (fun b => decide (n.priority ≤ b.priority)) = true ∧
    findExpense (approve db caller aid cm u now).2 a.expense = some (promoteUpd e n) ∧
    (promoteUpd e n).currentApprover = some n.approver ∧
    (n.role = .finance → (promoteUpd e n).status = .pending_finance) ∧
    (n.role = .director → (promoteUpd e n).status = .pending_director) := by
  have he1 : findExpense (saveApproval db (approveUpd a cm u now)) a.expense = some e := he
  have hmin : minByPriority ((saveApproval db (approveUpd a cm u now)).approvals.filter
      (fun b => b.expense == e.id && b.status == AStatus.pending
        && decide (a.priority < b.priority))) = some n := hn
  have hfull : approve db caller aid cm u now =
      (.ok, saveExpense (saveApproval db (approveUpd a cm u now)) (promoteUpd e n)) := by
    unfold approve
    rw [ha]
    dsimp only
    rw [if_neg (by simp [hap])]
    rw [if_neg (by simp [hst])]
    rw [he1]
    dsimp only
    rw [if_neg hrem, hn]
  refine ⟨by rw [hfull], minByPriority_mem _ n hmin, ?_, ?_, promoteUpd_approver e n,
    promoteUpd_finance e n, promoteUpd_director e n⟩
  · exact List.all_eq_true.mpr
      (fun b hb => decide_eq_true (minByPriority_min _ n hmin b hb))
  · rw [hfull]
    exact findExpense_save _ e (promoteUpd e n) a.expense he1 (promoteUpd_id e n)

/-- Concrete store for the C5 witness: three pending approvals for expense
10, with priorities 1 (manager, approver 2), 2 (finance, approver 3) and
3 (director, approver 4). -/
def c5a : Approval :=
  { id := 1, expense := 10, approver := 2, role := .manager, priority := 1 }

/-- The promoted (priority 2, finance) approval of the C5 witness. -/
def c5n : Approval :=
  { id := 2, expense := 10, approver := 3, role := .finance, priority := 2 }

/-- The expense of the C5 witness. -/
def c5e : Expense :=
  { id := 10, employee := 5, company := 1, amount := 500,
    status := .pending_manager, currentApprover := some 2 }

/-- The store of the C5 witness. -/
def c5db : Db :=
  { approvals := [c5a, c5n
                  , { id := 3, expense := 10, approver := 4, role := .director, priority := 3 }]
    expenses := [c5e] }

/-- Witness for C5: approver 2 approves the priority-1 approval; the
priority-2 finance approval is promoted. -/
theorem c5_witness :
    (approve c5db 2 1 none false 99).1 = .ok ∧
    c5n ∈ (saveApproval c5db (approveUpd c5a none false 99)).approvals.filter
        (fun b => b.expense == c5e.id && b.status == AStatus.pending
          && decide (c5a.priority < b.priority)) ∧
    ((saveApproval c5db (approveUpd c5a none false 99)).approvals.filter
        (fun b => b.expense == c5e.id && b.status == AStatus.pending
          && decide (c5a.priority < b.priority))).all
        (fun b => decide (c5n.priority ≤ b.priority)) = true ∧
    findExpense (approve c5db 2 1 none false 99).2 c5a.expense = some (promoteUpd c5e c5n) ∧
    (promoteUpd c5e c5n).currentApprover = some c5n.approver ∧
    (c5n.role = .finance → (promoteUpd c5e c5n).status = .pending_finance) ∧
    (c5n.role = .director → (promoteUpd c5e c5n).status = .pending_director) :=
  c5_approve_moves_to_next_priority_approver c5db 2 1 none false 99 c5a rfl rfl rfl
    c5e rfl (by decide) c5n (by decide)

/-- `escExpUpd` does not change the expense id. -/
theorem escExpUpd_id (e : Expense) (r : Role) (tid : Nat) :
    (escExpUpd e r tid).id = e.id := by
  unfold escExpUpd
  dsimp only
  split
  · rfl
  · split <;> rfl

/-- `escExpUpd` sets `currentApprover` to the escalation target. -/
theorem escExpUpd_approver (e : Expense) (r : Role) (tid : Nat) :
    (escExpUpd e r tid).currentApprover = some tid := by
  unfold escExpUpd
  dsimp only
  split
  · rfl
  · split <;> rfl

/-- For a manager- or finance-role target, `escExpUpd` sets the status the
escalate route prescribes for that role. -/
theorem escExpUpd_status (e : Expense) (r : Role) (tid : Nat)
    (h : r = .manager ∨ r = .finance) :
    (escExpUpd e r tid).status =
      (if r = .finance then EStatus.pending_finance else EStatus.pending_manager) := by
  rcases h with h | h <;> subst h <;> rfl

/-- Concrete store for C6's counterexample (also used by the C8 witness):
approver 2 holds the only pending approval for expense 10, and user 5 is an
admin — a role the escalate route accepts as target. -/
def c6a : Approval :=
  { id := 1, expense := 10, approver := 2, role := .manager, priority := 1 }

/-- The store of the C6 counterexample. -/
def c6db : Db :=
  { approvals := [c6a]
    users := [{ id := 5, role := .admin, company := 1 }]
    expenses := [{ id := 10, employee := 3, company := 1, amount := 500,
                   status := .pending_manager, currentApprover := some 2 }] }

set_option maxRecDepth 8000 in
/-- Counterexample to C6 as stated: user 5's role `admin` passes the route's
target check (`['manager', 'finance', 'admin']`), so it is a valid escalation
target, yet no new Approval is created, the expense is untouched and the
request fails — the new Approval's role `admin` violates the Approval
schema's enum, so its save throws after the acted approval was already
marked `escalated`. -/
theorem c6_counterexample_admin_target_creates_no_approval :
    (findUser c6db 5).map User.role = some Role.admin ∧
    (escalate c6db 2 1 none (some "needs review") 5 99 7).1 = .err .serverError ∧
    (escalate c6db 2 1 none (some "needs review") 5 99 7).2.approvals.map Approval.status
      = [AStatus.escalated] ∧
    (escalate c6db 2 1 none (some "needs review") 5 99 7).2.approvals.length = 1 ∧
    findExpense (escalate c6db 2 1 none (some "needs review") 5 99 7).2 10
      = findExpense c6db 10 := by
  refine ⟨rfl, ?_, ?_, ?_, ?_⟩ <;> with_unfolding_all decide

/-- Claim C6, amended: escalating a pending approval to a target whose role
is `manager` or `finance` (an admin-role target instead fails after the
first write — it violates the Approval schema's role enum, see C8) marks the
acted approval `escalated`, creates exactly one new pending Approval for the
target with the target's role and priority one above the acted approval's,
sets `currentApprover` to the target and sets the status to
`pending_manager`/`pending_finance` according to the target's role. -/
theorem c6_escalate_to_manager_or_finance
    (db : Db) (caller aid : Nat) (cm er : Option String) (tid now newId : Nat)
    (a : Approval) (ha : findApproval db aid = some a)
    (hap : a.approver = caller) (hst : a.status = .pending)
    (t : User) (ht : findUser db tid = some t)
    (hrole : t.role = .manager ∨ t.role = .finance)
    (e : Expense) (he : findExpense db a.expense = some e) :
    escalate db caller aid cm er tid now newId =
      (.ok, saveExpense
        (insertApproval (saveApproval db (escalateUpd a cm er tid now))
          { id := newId
            expense := a.expense
            approver := tid
            role := t.role
            status := .pending
            priority := a.priority + 1 })
        (escExpUpd e t.role tid)) ∧
    (escalate db caller aid cm er tid now newId).2.approvals =
      (saveApproval db (escalateUpd a cm er tid now)).approvals ++
        [{ id := newId
           expense := a.expense
           approver := tid
           role := t.role
           status := .pending
           priority := a.priority + 1 }] ∧
    findApproval (escalate db caller aid cm er tid now newId).2 aid
      = some (escalateUpd a cm er tid now) ∧
    (escalateUpd a cm er tid now).status = .escalated ∧
    findExpense (escalate db caller aid cm er tid now newId).2 a.expense
      = some (escExpUpd e t.role tid) ∧
    (escExpUpd e t.role tid).currentApprover = some tid ∧
    (escExpUpd e t.role tid).status =
      (if t.role = .finance then EStatus.pending_finance else EStatus.pending_manager) := by
  have hvalid : t.role = .manager ∨ t.role = .finance ∨ t.role = .admin := by
    rcases hrole with h | h
    · exact Or.inl h
    · exact Or.inr (Or.inl h)
  have hok : approvalRoleOk t.role = true := by
    rcases hrole with h | h <;> rw [h] <;> rfl
  have he2 : findExpense
      (insertApproval (saveApproval db (escalateUpd a cm er tid now))
        { id := newId
          expense := a.expense
          approver := tid
          role := t.role
          status := .pending
          priority := a.priority + 1 }) a.expense = some e := he
  have hmain : escalate db caller aid cm er tid now newId =
      (.ok, saveExpense
        (insertApproval (saveApproval db (escalateUpd a cm er tid now))
          { id := newId
            expense := a.expense
            approver := tid
            role := t.role
            status := .pending
            priority := a.priority + 1 })
        (escExpUpd e t.role tid)) := by
    unfold escalate
    rw [ha]
    dsimp only
    rw [if_neg (by simp [hap])]
    rw [if_neg (by simp [hst])]
    rw [ht]
    dsimp only
    rw [if_neg (not_not_intro hvalid)]
    rw [if_neg (by simp [hok])]
    rw [he2]
  refine ⟨hmain, ?_, ?_, rfl, ?_, escExpUpd_approver e t.role tid,
    escExpUpd_status e t.role tid hrole⟩
  · rw [hmain]
    rfl
  · have hfind : List.find? (fun x => x.id == aid)
        (saveApproval db (escalateUpd a cm er tid now)).approvals
        = some (escalateUpd a cm er tid now) :=
      findApproval_save db a (escalateUpd a cm er tid now) aid ha rfl
    rw [hmain]
    dsimp only
    rw [findApproval_saveExpense]
    unfold findApproval insertApproval
    dsimp only
    rw [List.find?_append]
    rw [hfind]
    rfl
  · rw [hmain]
    exact findExpense_save _ e (escExpUpd e t.role tid) a.expense he2
      (escExpUpd_id e t.role tid)

/-- The finance-role escalation target of the C6 witness. -/
def c6t : User := { id := 6, role := .finance, company := 1 }

/-- The expense of the C6 witness. -/
def c6we : Expense :=
  { id := 10, employee := 3, company := 1, amount := 500,
    status := .pending_manager, currentApprover := some 2 }

/-- The store of the C6 witness. -/
def c6wdb : Db :=
  { approvals := [c6a]
    users := [c6t]
    expenses := [c6we] }

/-- Witness for the amended C6: approver 2 escalates to finance user 6. -/
theorem c6_witness :
    escalate c6wdb 2 1 none (some "needs higher approval") 6 99 7 =
      (.ok, saveExpense
        (insertApproval (saveApproval c6wdb
            (escalateUpd c6a none (some "needs higher approval") 6 99))
          { id := 7
            expense := c6a.expense
            approver := 6
            role := c6t.role
            status := .pending
            priority := c6a.priority + 1 })
        (escExpUpd c6we c6t.role 6)) ∧
    (escalate c6wdb 2 1 none (some "needs higher approval") 6 99 7).2.approvals =
      (saveApproval c6wdb (escalateUpd c6a none (some "needs higher approval") 6 99)).approvals
        ++ [{ id := 7
              expense := c6a.expense
              approver := 6
              role := c6t.role
              status := .pending
              priority := c6a.priority + 1 }] ∧
    findApproval (escalate c6wdb 2 1 none (some "needs higher approval") 6 99 7).2 1
      = some (escalateUpd c6a none (some "needs higher approval") 6 99) ∧
    (escalateUpd c6a none (some "needs higher approval") 6 99).status = .escalated ∧
    findExpense (escalate c6wdb 2 1 none (some "needs higher approval") 6 99 7).2 c6a.expense
      = some (escExpUpd c6we c6t.role 6) ∧
    (escExpUpd c6we c6t.role 6).currentApprover = some 6 ∧
    (escExpUpd c6we c6t.role 6).status =
      (if c6t.role = .finance then EStatus.pending_finance else EStatus.pending_manager) :=
  c6_escalate_to_manager_or_finance c6wdb 2 1 none (some "needs higher approval") 6 99 7
    c6a rfl rfl rfl c6t rfl (Or.inr rfl) c6we rfl

/-- Claim C8: escalating a pending approval to an admin-role target passes
the route's target check, saves the acted approval as `escalated`, and then
fails (500) when saving the new Approval, whose role `admin` is outside the
Approval schema enum — leaving the acted approval `escalated`, no new
Approval created and the expenses untouched. -/
theorem c8_escalate_admin_target_fails_after_first_write
    (db : Db) (caller aid : Nat) (cm er : Option String) (tid now newId : Nat)
    (a : Approval) (ha : findApproval db aid = some a)
    (hap : a.approver = caller) (hst : a.status = .pending)
    (t : User) (ht : findUser db tid = some t) (hrole : t.role = .admin) :
    escalate db caller aid cm er tid now newId =
      (.err .serverError, saveApproval db (escalateUpd a cm er tid now)) ∧
    (escalate db caller aid cm er tid now newId).2.expenses = db.expenses ∧
    (escalate db caller aid cm er tid now newId).2.approvals =
      db.approvals.map (fun x => if x.id == a.id then escalateUpd a cm er tid now else x) ∧
    findApproval (escalate db caller aid cm er tid now newId).2 aid
      = some (escalateUpd a cm er tid now) ∧
    (escalateUpd a cm er tid now).status = .escalated := by
  have hvalid : t.role = .manager ∨ t.role = .finance ∨ t.role = .admin :=
    Or.inr (Or.inr hrole)
  have hbad : approvalRoleOk t.role = false := by rw [hrole]; rfl
  have hmain : escalate db caller aid cm er tid now newId =
      (.err .serverError, saveApproval db (escalateUpd a cm er tid now)) := by
    unfold escalate
    rw [ha]
    dsimp only
    rw [if_neg (by simp [hap])]
    rw [if_neg (by simp [hst])]
    rw [ht]
    dsimp only
    rw [if_neg (not_not_intro hvalid)]
    rw [if_pos (by simp [hbad])]
  refine ⟨hmain, ?_, ?_, ?_, rfl⟩
  · rw [hmain]
    rfl
  · rw [hmain]
    rfl
  · rw [hmain]
    exact findApproval_save db a (escalateUpd a cm er tid now) aid ha rfl

/-- Witness for C8: the admin-target escalation of store `c6db`. -/
theorem c8_witness :
    escalate c6db 2 1 none (some "needs review") 5 99 7 =
      (.err .serverError, saveApproval c6db (escalateUpd c6a none (some "needs review") 5 99)) ∧
    (escalate c6db 2 1 none (some "needs review") 5 99 7).2.expenses = c6db.expenses ∧
    (escalate c6db 2 1 none (some "needs review") 5 99 7).2.approvals =
      c6db.approvals.map
        (fun x => if x.id == c6a.id then escalateUpd c6a none (some "needs review") 5 99 else x) ∧
    findApproval (escalate c6db 2 1 none (some "needs review") 5 99 7).2 1
      = some (escalateUpd c6a none (some "needs review") 5 99) ∧
    (escalateUpd c6a none (some "needs review") 5 99).status = .escalated :=
  c8_escalate_admin_target_fails_after_first_write c6db 2 1 none (some "needs review") 5 99 7
    c6a rfl rfl rfl { id := 5, role := .admin, company := 1 } rfl rfl

/-- Claim C7: for approve, reject and escalate alike, a caller who is not
the approval's approver is refused with an authorization error, and a
non-pending target approval is refused as a conflict — in all six cases the
returned store is exactly the input store (no side effects). -/
theorem c7_refused_transitions_leave_state_unchanged
    (db : Db) (caller aid : Nat) (cm er rr : Option String) (u : Bool) (tid now newId : Nat)
    (a : Approval) (ha : findApproval db aid = some a) :
    (a.approver ≠ caller →
      approve db caller aid cm u now = (.err .accessDenied, db) ∧
      reject db caller aid cm rr now = (.err .accessDenied, db) ∧
      escalate db caller aid cm er tid now newId = (.err .accessDenied, db)) ∧
    (a.approver = caller → a.status ≠ .pending →
      approve db caller aid cm u now = (.err .notPending, db) ∧
      reject db caller aid cm rr now = (.err .notPending, db) ∧
      escalate db caller aid cm er tid now newId = (.err .notPending, db)) := by
  constructor
  · intro h
    refine ⟨?_, ?_, ?_⟩
    · unfold approve
      rw [ha]
      dsimp only
      rw [if_pos h]
    · unfold reject
      rw [ha]
      dsimp only
      rw [if_pos h]
    · unfold escalate
      rw [ha]
      dsimp only
      rw [if_pos h]
  · intro h1 h2
    refine ⟨?_, ?_, ?_⟩
    · unfold approve
      rw [ha]
      dsimp only
      rw [if_neg (by simp [h1]), if_pos h2]
    · unfold reject
      rw [ha]
      dsimp only
      rw [if_neg (by simp [h1]), if_pos h2]
    · unfold escalate
      rw [ha]
      dsimp only
      rw [if_neg (by simp [h1]), if_pos h2]

/-- Witness for C7 at store `c4db`, whose approval 1 belongs to approver 5:
caller 9 is refused on all three routes with the store unchanged, and the
non-pending conflict branch is covered vacuously (5 ≠ 9). -/
theorem c7_witness :
    (({ id := 1, expense := 10, approver := 5, role := .manager,
        priority := 1 } : Approval).approver ≠ 9 →
      approve c4db 9 1 none false 99 = (.err .accessDenied, c4db) ∧
      reject c4db 9 1 none none 99 = (.err .accessDenied, c4db) ∧
      escalate c4db 9 1 none none 6 99 7 = (.err .accessDenied, c4db)) ∧
    (({ id := 1, expense := 10, approver := 5, role := .manager,
        priority := 1 } : Approval).approver = 9 →
      ({ id := 1, expense := 10, approver := 5, role := .manager,
         priority := 1 } : Approval).status ≠ .pending →
      approve c4db 9 1 none false 99 = (.err .notPending, c4db) ∧
      reject c4db 9 1 none none 99 = (.err .notPending, c4db) ∧
      escalate c4db 9 1 none none 6 99 7 = (.err .notPending, c4db)) :=
  c7_refused_transitions_leave_state_unchanged c4db 9 1 none none none false 6 99 7
    { id := 1, expense := 10, approver := 5, role := .manager, priority := 1 } rfl

/-- Counterexample to C9 as stated: on the text `"TOTAL: 0\n$5.00"` the
first regex match in pattern order is the `TOTAL` hit with value 0, but the
returned amount is 5 (a later pattern's hit) and the amount stage added 0.6
to the confidence, not exactly 0.3 — the loop only stops at a hit whose
parsed value is positive, and every hit increments the accumulator. -/
theorem c9_counterexample_zero_valued_first_hit :
    (linesOf ("TOTAL: 0\n$5.00".toList)).findSome?
        (scanPos (matchKwNumAt ['T','O','T','A','L'])) = some 0 ∧
    (parseReceiptText "TOTAL: 0\n$5.00").amount = 5 ∧
    (parseReceiptText "TOTAL: 0\n$5.00").confidence = 3/5 := by
  refine ⟨?_, ?_, ?_⟩ <;> with_unfolding_all decide

/-- Claim C9, amended: the extracted amount is the first pattern-order hit
whose parsed value is positive (a zero-valued hit still adds 0.3 and the
loop moves on to later patterns); in particular, for any input whose line
list contains `"TOTAL: $42.50"` with no earlier line matching the `TOTAL`
pattern, the amount is 42.50, the confidence is at least 0.3, and the final
confidence is capped at 1.0. -/
theorem c9_total_line_yields_amount
    (text : String) (pre post : List (List Char))
    (hl : linesOf text.toList = pre ++ ("TOTAL: $42.50".toList :: post))
    (hpre : ∀ l ∈ pre, scanPos (matchKwNumAt ['T','O','T','A','L']) l = none) :
    (parseReceiptText text).amount = 85/2 ∧
    (3/10 : ℚ) ≤ (parseReceiptText text).confidence ∧
    (parseReceiptText text).confidence ≤ 1 := by
  have hline : scanPos (matchKwNumAt ['T','O','T','A','L']) ("TOTAL: $42.50".toList)
      = some (85/2) := by with_unfolding_all decide
  have hfind : (linesOf text.toList).findSome?
      (scanPos (matchKwNumAt ['T','O','T','A','L'])) = some (85/2) := by
    rw [hl]
    exact findSome_append_first _ pre post _ hpre _ hline
  have hamt : amountGo amountPatterns (linesOf text.toList) 0 0 = (85/2, 3/10) :=
    amountGo_first_pos _ _ _ (85/2) hfind (by norm_num)
  refine ⟨?_, ?_, parse_conf_le_one text⟩
  · show (parseReceiptText text).amount = 85/2
    unfold parseReceiptText
    dsimp only
    rw [hamt]
  · show (3/10 : ℚ) ≤ (parseReceiptText text).confidence
    unfold parseReceiptText
    dsimp only
    rw [hamt]
    dsimp only
    refine le_min ?_ (by norm_num)
    have h1 := dateGo_conf_le datePatterns (linesOf text.toList) none (3/10)
    have h2 := categoryScan_nonneg ((merchantOf (linesOf text.toList)).map Char.toLower)
    linarith

/-- Witness for the amended C9: the spec's own example text. -/
theorem c9_witness :
    (parseReceiptText "TOTAL: $42.50").amount = 85/2 ∧
    (3/10 : ℚ) ≤ (parseReceiptText "TOTAL: $42.50").confidence ∧
    (parseReceiptText "TOTAL: $42.50").confidence ≤ 1 :=
  c9_total_line_yields_amount "TOTAL: $42.50" [] []
    (by with_unfolding_all decide) (by simp)

set_option maxRecDepth 8000 in
/-- Claim C10's failing input, evaluated: on `"Jan 15, 2024"` the third date
pattern matches, but its capture group is only the month name `"Jan"`, whose
parse is an Invalid Date — so no 0.2 is added, the remaining patterns are
skipped (an Invalid Date object is truthy), and the result's date is the
invalid marker instead of January 15, 2024. -/
theorem c10_month_name_date_capture_is_invalid :
    scanPos matchD3At ("Jan 15, 2024".toList) = some ("Jan".toList) ∧
    jsNewDate ("Jan".toList) = none ∧
    parseReceiptText "Jan 15, 2024" =
      { merchantName := "Jan 15, 2024"
        amount := 0
        date := some none
        category := "Other"
        confidence := 0 } := by
  refine ⟨?_, rfl, ?_⟩ <;> with_unfolding_all decide
